import Mathlib

/-!
Shallow embedding of `src/pages/api/update-and-deploy.js` (Astro API route):
an admin endpoint that mutates a JSON array of "property" records stored as
a blob (`properties.json` in bucket `properties`), then optionally fires a
redeploy webhook.

JavaScript values coming out of `JSON.parse` are modelled by `JsonValue`
(numbers as `Int`: the ids and flags the handler inspects are integral).
`undefined` is modelled as `Option.none` where a field access can miss.
External effects (Supabase auth `getUser`, storage download/upload, `fetch`)
are oracles collected in `World`; environment variables are in `Config`.
A JS exception (e.g. member access on `null`, `JSON.parse` failure,
`request.json()` rejection) is `Except.error msg`; the outer
`try/catch` turns it into a 500 response.
-/

/-- A JSON value as produced by `JSON.parse` / `request.json()`. -/
inductive JsonValue where
  | null : JsonValue
  | bool : Bool → JsonValue
  | num : Int → JsonValue
  | str : String → JsonValue
  | arr : List JsonValue → JsonValue
  | obj : List (String × JsonValue) → JsonValue

/-- Field lookup in a JS object. `JSON.parse` keeps the LAST duplicate key,
so lookup prefers the last occurrence. `none` models `undefined`. -/
def lookupField (key : String) : List (String × JsonValue) → Option JsonValue
  | [] => none
  | (k, v) :: rest =>
    match lookupField key rest with
    | some r => some r
    | none => if k = key then some v else none

mutual
/-- `Array.prototype.join(",")` element rendering: `null` (and `undefined`)
become the empty string, everything else is stringified. -/
def jsStringElem : JsonValue → String
  | .null => ""
  | .bool b => cond b "true" "false"
  | .num n => toString n
  | .str s => s
  | .obj _ => "[object Object]"
  | .arr xs => jsStringList xs

/-- `Array.prototype.toString`: elements joined by commas. -/
def jsStringList : List JsonValue → String
  | [] => ""
  | [x] => jsStringElem x
  | x :: xs => jsStringElem x ++ "," ++ jsStringList xs
end

/-- JS `String(v)` coercion for a (non-`undefined`) JSON value. -/
def jsStringOf : JsonValue → String
  | .null => "null"
  | .bool b => cond b "true" "false"
  | .num n => toString n
  | .str s => s
  | .obj _ => "[object Object]"
  | .arr xs => jsStringList xs

/-- JS `String(v)` where `v` may be `undefined` (`String(undefined) = "undefined"`). -/
def jsStringOpt : Option JsonValue → String
  | none => "undefined"
  | some v => jsStringOf v

/-- JS truthiness of a JSON value. -/
def truthy : JsonValue → Bool
  | .null => false
  | .bool b => b
  | .num n => n != 0
  | .str s => s != ""
  | .arr _ => true
  | .obj _ => true

/-- JS truthiness where the value may be `undefined`. -/
def truthyOpt : Option JsonValue → Bool
  | none => false
  | some v => truthy v

/-- JS member access `v.k`: throws a `TypeError` on `null`, yields
`undefined` on primitives and arrays, looks up the field on objects. -/
def jsGetField (v : JsonValue) (k : String) : Except String (Option JsonValue) :=
  match v with
  | .null => .error ("Cannot read properties of null (reading " ++ k ++ ")")
  | .obj fields => .ok (lookupField k fields)
  | _ => .ok none

/-- JS strict equality of a JSON value against a string literal
(`v === "s"` is true only when `v` is that exact string). -/
def strEq (v : JsonValue) (s : String) : Bool :=
  match v with
  | .str t => t == s
  | _ => false

/-- `String(p.id)` as the handler computes it (may throw on `null`). -/
def idString (p : JsonValue) : Except String String :=
  match jsGetField p "id" with
  | .error m => .error m
  | .ok idv => .ok (jsStringOpt idv)

/-- The `id` field of a value, `none` when `undefined`. -/
def idField : JsonValue → Option JsonValue
  | .obj fields => lookupField "id" fields
  | _ => none

/-- Total version of `String(p.id)`; agrees with `idString` off `null`. -/
def idStr (p : JsonValue) : String :=
  jsStringOpt (idField p)

/-- `props.push(property)`: appends to an array, `TypeError` otherwise. -/
def jsPush (props property : JsonValue) : Except String JsonValue :=
  match props with
  | .arr xs => .ok (.arr (xs ++ [property]))
  | _ => .error "props.push is not a function"

/-- `props.map(p => String(p.id) === String(property.id) ? property : p)`,
element by element in order, propagating the first thrown `TypeError`. -/
def applyEdit (props : List JsonValue) (property : JsonValue) :
    Except String (List JsonValue) :=
  match props with
  | [] => .ok []
  | p :: ps =>
    match idString p with
    | .error m => .error m
    | .ok s =>
      match idString property with
      | .error m => .error m
      | .ok t =>
        match applyEdit ps property with
        | .error m => .error m
        | .ok rest => .ok ((if s = t then property else p) :: rest)

/-- `props.filter(p => String(p.id) !== String(property.id))`. -/
def applyDelete (props : List JsonValue) (property : JsonValue) :
    Except String (List JsonValue) :=
  match props with
  | [] => .ok []
  | p :: ps =>
    match idString p with
    | .error m => .error m
    | .ok s =>
      match idString property with
      | .error m => .error m
      | .ok t =>
        match applyDelete ps property with
        | .error m => .error m
        | .ok rest => .ok (if s ≠ t then p :: rest else rest)

/-- Step 4 of the handler: dispatch on the (truthy) `action` value.
`Except.error` is a thrown `TypeError`; `Option.none` means the
`action` matched no branch (`Unknown action`). -/
def applyAction (props actionV propertyV : JsonValue) :
    Except String (Option JsonValue) :=
  if strEq actionV "add" then
    match jsPush props propertyV with
    | .error m => .error m
    | .ok r => .ok (some r)
  else if strEq actionV "edit" then
    match props with
    | .arr xs =>
      match applyEdit xs propertyV with
      | .error m => .error m
      | .ok ys => .ok (some (.arr ys))
    | _ => .error "props.map is not a function"
  else if strEq actionV "delete" then
    match props with
    | .arr xs =>
      match applyDelete xs propertyV with
      | .error m => .error m
      | .ok ys => .ok (some (.arr ys))
    | _ => .error "props.filter is not a function"
  else
    .ok none

/-! ### Environment, external services, request and response -/

/-- The environment variables the route reads (`none` = unset). -/
structure Config where
  VITE_SUPABASE_URL : Option String
  SUPABASE_URL : Option String
  VITE_SUPABASE_ANON_KEY : Option String
  SUPABASE_ANON_KEY : Option String
  SUPABASE_SERVICE_ROLE_KEY : Option String
  VERCEL_DEPLOY_HOOK : Option String
  ADMIN_EMAILS : Option String

/-- JS truthiness of an env value (`undefined` and `""` are falsy). -/
def truthyStr : Option String → Bool
  | none => false
  | some s => s != ""

/-- JS `a || b` on env values. -/
def jsOr (a b : Option String) : Option String :=
  if truthyStr a then a else b

/-- The verified user returned by `auth.getUser` (email may be absent). -/
structure User where
  email : Option String

/-- Result of `supabaseForAuth.auth.getUser(token)`:
`userError` is the truthiness of `error`, `user` is `data?.user`. -/
structure GetUserResp where
  userError : Bool
  user : Option User

/-- A storage error object (`status` may be `undefined`). -/
structure StorageError where
  status : Option Nat
  message : String

/-- Result of `storage.from(BUCKET).download(FILE)`:
`data` is the text of the blob when one came back, `error` the error object. -/
structure DownloadResp where
  data : Option String
  error : Option StorageError

/-- Oracles for the external services one request interacts with. -/
structure World where
  getUser : String → GetUserResp
  download : DownloadResp
  parse : String → Except String JsonValue
  uploadError : Option String
  fetchFails : Bool

/-- The incoming request: `authorization` header (if present) and the
result of `await request.json()` (`error` = the body is not valid JSON). -/
structure Request where
  authHeader : Option String
  body : Except String JsonValue

/-- An HTTP response: status and JSON body. -/
structure HttpResponse where
  status : Nat
  body : JsonValue

/-- What one invocation of the route did: the response, the collection
passed to `upload` (`none` = upload never attempted), and whether the
deploy-hook `fetch` was issued. -/
structure Outcome where
  response : HttpResponse
  uploadRequest : Option JsonValue
  webhookAttempted : Bool

def errResp (status : Nat) (msg : String) : HttpResponse :=
  ⟨status, .obj [("error", .str msg)]⟩

def okResp : HttpResponse :=
  ⟨200, .obj [("ok", .bool true)]⟩

/-! ### JS string primitives, modelled over `List Char` so that they
compute by kernel reduction. -/

/-- `String.prototype.split(c)` grouping: split at every occurrence of the
separator, keeping empty segments (so splitting "" yields [""]). -/
def splitChar (c : Char) : List Char → List (List Char)
  | [] => [[]]
  | x :: xs =>
    match splitChar c xs with
    | [] => [[]]
    | g :: gs => if x = c then [] :: g :: gs else (x :: g) :: gs

/-- JS `s.split(c)` for a single-character separator (the route only splits
on " " and ","). -/
def jsSplit (s : String) (c : Char) : List String :=
  (splitChar c s.data).map (fun l => ⟨l⟩)

def isJsSpace (ch : Char) : Bool :=
  ch = ' ' || ch = '\t' || ch = '\n' || ch = '\r'

/-- JS `s.trim()` (ASCII whitespace). -/
def jsTrim (s : String) : String :=
  ⟨((s.data.dropWhile isJsSpace).reverse.dropWhile isJsSpace).reverse⟩

def jsLowerChar (ch : Char) : Char :=
  if 'A' ≤ ch && ch ≤ 'Z' then Char.ofNat (ch.toNat + 32) else ch

/-- JS `s.toLowerCase()` (ASCII). -/
def jsToLower (s : String) : String :=
  ⟨s.data.map jsLowerChar⟩

/-- JS `s.startsWith(pre)`. -/
def jsStartsWith (s pre : String) : Bool :=
  pre.data.isPrefixOf s.data

/-- Token extraction: `authHeader.startsWith("Bearer ") ? authHeader.split(" ")[1] : null`. -/
def extractToken (authHeader : String) : Option String :=
  if jsStartsWith authHeader "Bearer " then (jsSplit authHeader ' ')[1]? else none

/-- `!token`: the token is `null`/`undefined` or the empty string. -/
def tokenFalsy : Option String → Bool
  | none => true
  | some s => s == ""

/-- `!(!SUPABASE_URL || !SUPABASE_ANON || !SUPABASE_SERVICE_ROLE)`. -/
def configOk (cfg : Config) : Bool :=
  truthyStr (jsOr cfg.VITE_SUPABASE_URL cfg.SUPABASE_URL) &&
  truthyStr (jsOr cfg.VITE_SUPABASE_ANON_KEY cfg.SUPABASE_ANON_KEY) &&
  truthyStr cfg.SUPABASE_SERVICE_ROLE_KEY

/-- `(process.env.ADMIN_EMAILS || "").split(",").map(s => s.trim().toLowerCase())`. -/
def adminEmailsOf (cfg : Config) : List String :=
  (jsSplit (cfg.ADMIN_EMAILS.getD "") ',').map (fun s => jsToLower (jsTrim s))

/-- Step 3 of the handler: download `properties.json`. `inl` is an early
response (non-404 read failure), `inr` the in-memory `props` value.
After the error check the code still reads `downloadData` if present:
`props = txt ? JSON.parse(txt) : []`, starting from `props = []`. -/
def readData (w : World) : Except String (HttpResponse ⊕ JsonValue) :=
  match w.download.data with
  | none => .ok (.inr (.arr []))
  | some txt =>
    if txt ≠ "" then
      match w.parse txt with
      | .error m => .error m
      | .ok v => .ok (.inr v)
    else .ok (.inr (.arr []))

/-- `if (downloadError && downloadError.status !== 404) return 500 ...`. -/
def readProps (w : World) : Except String (HttpResponse ⊕ JsonValue) :=
  match w.download.error with
  | some e =>
    if e.status ≠ some 404 then
      .ok (.inl (errResp 500 ("Failed to read properties.json: " ++ e.message)))
    else readData w
  | none => readData w

/-- The body of the `try` block of the route. `Except.error` is an uncaught
JS exception, handled by the catch-all in `POST`. -/
def POSTinner (cfg : Config) (w : World) (req : Request) : Except String Outcome :=
  match req.body with
  | .error e => .error e
  | .ok body =>
    let authHeader := req.authHeader.getD ""
    let token := extractToken authHeader
    if tokenFalsy token then
      .ok ⟨errResp 401 "Unauthorized - missing token", none, false⟩
    else if !configOk cfg then
      .ok ⟨errResp 500 "Server misconfiguration", none, false⟩
    else
      let gu := w.getUser (token.getD "")
      if gu.userError || gu.user.isNone then
        .ok ⟨errResp 401 "Invalid token", none, false⟩
      else
        let userEmail := jsToLower ((gu.user.getD ⟨none⟩).email.getD "")
        if !((adminEmailsOf cfg).contains userEmail) then
          .ok ⟨errResp 403 "Forbidden - not an admin", none, false⟩
        else
          match readProps w with
          | .error e => .error e
          | .ok (.inl resp) => .ok ⟨resp, none, false⟩
          | .ok (.inr props) =>
            match jsGetField body "action" with
            | .error e => .error e
            | .ok action =>
              match jsGetField body "property" with
              | .error e => .error e
              | .ok property =>
                if !truthyOpt action || !truthyOpt property then
                  .ok ⟨errResp 400 "Bad request", none, false⟩
                else
                  match applyAction props (action.getD .null) (property.getD .null) with
                  | .error e => .error e
                  | .ok none => .ok ⟨errResp 400 "Unknown action", none, false⟩
                  | .ok (some newProps) =>
                    match w.uploadError with
                    | some m =>
                      .ok ⟨errResp 500 ("Upload failed: " ++ m), some newProps, false⟩
                    | none =>
                      .ok ⟨okResp, some newProps, cfg.VERCEL_DEPLOY_HOOK.getD "" != ""⟩

/-- The exported route handler, with the outer `try/catch`: any thrown
error becomes `500 {error: message}`. Every throw site precedes the
upload and the webhook, so the catch-all records neither. -/
def POST (cfg : Config) (w : World) (req : Request) : Outcome :=
  match POSTinner cfg w req with
  | .ok o => o
  | .error m => ⟨errResp 500 m, none, false⟩

/-! ### Basic lemmas about the embedded operations -/

theorem truthyOpt_some (v : JsonValue) : truthyOpt (some v) = truthy v := rfl

theorem truthy_str (s : String) : truthy (.str s) = (s != "") := rfl

theorem strEq_eq_false {v : JsonValue} {s : String} (h : v ≠ .str s) :
    strEq v s = false := by
  cases v <;> simp_all [strEq]

theorem idString_ok (p : JsonValue) (h : p ≠ .null) : idString p = .ok (idStr p) := by
  cases p <;> simp_all [idString, idStr, idField, jsGetField]

theorem eq_idStr_of_idString_ok {p : JsonValue} {s : String}
    (h : idString p = .ok s) : s = idStr p := by
  cases p <;> simp_all [idString, idStr, idField, jsGetField]

theorem map_id_of_mem {α : Type} {f : α → α} {l : List α} (h : ∀ a ∈ l, f a = a) :
    l.map f = l := by
  induction l with
  | nil => rfl
  | cons a as ih =>
    simp [List.map, h a (by simp), ih (fun x hx => h x (by simp [hx]))]

theorem filter_all_of_mem {α : Type} {p : α → Bool} {l : List α}
    (h : ∀ a ∈ l, p a = true) : l.filter p = l := by
  induction l with
  | nil => rfl
  | cons a as ih =>
    simp [List.filter_cons, h a (by simp), ih (fun x hx => h x (by simp [hx]))]

/-- A successful `edit` is the pointwise replacement map over the collection. -/
theorem applyEdit_eq_map {xs : List JsonValue} {p : JsonValue} {ys : List JsonValue}
    (h : applyEdit xs p = .ok ys) :
    ys = xs.map (fun q => if idStr q = idStr p then p else q) := by
  induction xs generalizing ys with
  | nil => simp [applyEdit] at h; subst h; simp
  | cons q qs ih =>
    rw [applyEdit] at h
    cases hq : idString q with
    | error m => rw [hq] at h; exact absurd h (by simp)
    | ok s =>
      rw [hq] at h
      cases hp : idString p with
      | error m => rw [hp] at h; exact absurd h (by simp)
      | ok t =>
        rw [hp] at h
        cases hr : applyEdit qs p with
        | error m => rw [hr] at h; exact absurd h (by simp)
        | ok rest =>
          rw [hr] at h
          simp at h
          subst h
          simp [List.map, eq_idStr_of_idString_ok hq, eq_idStr_of_idString_ok hp, ih hr]

/-- A successful `delete` is a filter keeping the non-matching elements. -/
theorem applyDelete_eq_filter {xs : List JsonValue} {p : JsonValue} {ys : List JsonValue}
    (h : applyDelete xs p = .ok ys) :
    ys = xs.filter (fun q => idStr q != idStr p) := by
  induction xs generalizing ys with
  | nil => simp [applyDelete] at h; subst h; simp
  | cons q qs ih =>
    rw [applyDelete] at h
    cases hq : idString q with
    | error m => rw [hq] at h; exact absurd h (by simp)
    | ok s =>
      rw [hq] at h
      cases hp : idString p with
      | error m => rw [hp] at h; exact absurd h (by simp)
      | ok t =>
        rw [hp] at h
        cases hr : applyDelete qs p with
        | error m => rw [hr] at h; exact absurd h (by simp)
        | ok rest =>
          rw [hr] at h
          simp at h
          subst h
          rcases eq_idStr_of_idString_ok hq with rfl
          rcases eq_idStr_of_idString_ok hp with rfl
          rw [ih hr, List.filter_cons]
          by_cases hst : idStr q = idStr p
          · simp [hst]
          · simp [hst]

theorem applyDelete_ok_elems {xs : List JsonValue} {p : JsonValue} {ys : List JsonValue}
    (h : applyDelete xs p = .ok ys) :
    ∀ q ∈ xs, idString q = .ok (idStr q) := by
  induction xs generalizing ys with
  | nil => simp
  | cons q qs ih =>
    rw [applyDelete] at h
    cases hq : idString q with
    | error m => rw [hq] at h; exact absurd h (by simp)
    | ok s =>
      rw [hq] at h
      cases hp : idString p with
      | error m => rw [hp] at h; exact absurd h (by simp)
      | ok t =>
        rw [hp] at h
        cases hr : applyDelete qs p with
        | error m => rw [hr] at h; exact absurd h (by simp)
        | ok rest =>
          intro x hx
          rcases List.mem_cons.1 hx with rfl | hmem
          · rcases eq_idStr_of_idString_ok hq with rfl; exact hq
          · exact ih hr x hmem

theorem applyDelete_ok_prop {xs : List JsonValue} {p : JsonValue} {ys : List JsonValue}
    (hne : xs ≠ []) (h : applyDelete xs p = .ok ys) :
    idString p = .ok (idStr p) := by
  cases xs with
  | nil => exact absurd rfl hne
  | cons q qs =>
    rw [applyDelete] at h
    cases hq : idString q with
    | error m => rw [hq] at h; exact absurd h (by simp)
    | ok s =>
      rw [hq] at h
      cases hp : idString p with
      | error m => rw [hp] at h; exact absurd h (by simp)
      | ok t =>
        exact congrArg Except.ok (eq_idStr_of_idString_ok hp)

theorem applyDelete_fixed {p : JsonValue} (hp : idString p = .ok (idStr p))
    {ys : List JsonValue}
    (hall : ∀ q ∈ ys, idString q = .ok (idStr q) ∧ idStr q ≠ idStr p) :
    applyDelete ys p = .ok ys := by
  induction ys with
  | nil => simp [applyDelete]
  | cons q qs ih =>
    rw [applyDelete]
    rw [(hall q (by simp)).1, hp, ih (fun x hx => hall x (by simp [hx]))]
    simp [(hall q (by simp)).2]

/-- Deleting an id from a collection that a delete of the same id produced
changes nothing. -/
theorem applyDelete_idem {xs : List JsonValue} {p : JsonValue} {ys : List JsonValue}
    (h : applyDelete xs p = .ok ys) : applyDelete ys p = .ok ys := by
  cases xs with
  | nil => simp [applyDelete] at h; subst h; simp [applyDelete]
  | cons q qs =>
    have hp := applyDelete_ok_prop (by simp) h
    have hfil := applyDelete_eq_filter h
    apply applyDelete_fixed hp
    intro x hx
    rw [hfil] at hx
    have hm := List.mem_filter.1 hx
    exact ⟨applyDelete_ok_elems h x hm.1, by simpa using hm.2⟩

/-! ### Concrete fixtures used by the witnesses -/

def propA : JsonValue := .obj [("id", .str "1"), ("title", .str "A")]

def prop1x : JsonValue := .obj [("id", .str "1"), ("x", .num 1)]

def prop2x : JsonValue := .obj [("id", .str "2"), ("x", .num 2)]

def prop1new : JsonValue := .obj [("id", .str "1"), ("x", .num 99)]

def cfgW : Config :=
  ⟨some "https://supabase.example", none, some "anon-key", none,
   some "service-key", some "https://hook.example", some "Admin@Example.com"⟩

def adminUser : User := ⟨some "admin@example.com"⟩

def authOk : String → GetUserResp := fun _ => ⟨false, some adminUser⟩

def wEmpty : World :=
  ⟨authOk, ⟨none, none⟩, fun _ => .error "unused parse", none, false⟩

def reqAdd : Request :=
  ⟨some "Bearer token-1", .ok (.obj [("action", .str "add"), ("property", propA)])⟩

/-! ### C1 -/

/-- C1 counterexample: a request whose Authorization header is absent but
whose body is not valid JSON gets status 500 (the `request.json()` rejection
hits the catch-all before the token check), not the claimed 401. -/
theorem C1_counterexample :
    (POST cfgW wEmpty ⟨none, .error "Unexpected end of JSON input"⟩).response.status
      = 500 ∧
    (POST cfgW wEmpty ⟨none, .error "Unexpected end of JSON input"⟩).response.status
      ≠ 401 := by
  constructor
  · rfl
  · decide

/-- C1 (amended): for every request whose body parses as JSON, if the
Authorization header is absent or does not start with "Bearer ", the handler
responds 401 with error "Unauthorized - missing token", no upload attempted,
regardless of the parsed body, the configuration and the external world. -/
theorem C1_missing_token_401 (cfg : Config) (w : World) (hdr : Option String)
    (bv : JsonValue)
    (h : jsStartsWith (hdr.getD "") "Bearer " = false) :
    POST cfg w ⟨hdr, .ok bv⟩ =
      ⟨errResp 401 "Unauthorized - missing token", none, false⟩ := by
  simp [POST, POSTinner, extractToken, h, tokenFalsy]

/-- C1 witness: the amended theorem applied to a request with no
Authorization header and to one with a non-Bearer header. -/
theorem C1_missing_token_401_witness :
    (jsStartsWith ((none : Option String).getD "") "Bearer " = false ∧
      POST cfgW wEmpty ⟨none, .ok (.obj [])⟩ =
        ⟨errResp 401 "Unauthorized - missing token", none, false⟩) ∧
    (jsStartsWith ((some "Basic dXNlcg==" : Option String).getD "") "Bearer " = false ∧
      POST cfgW wEmpty ⟨some "Basic dXNlcg==", .ok (.obj [])⟩ =
        ⟨errResp 401 "Unauthorized - missing token", none, false⟩) :=
  ⟨⟨by decide, C1_missing_token_401 cfgW wEmpty none (.obj []) (by decide)⟩,
   ⟨by decide, C1_missing_token_401 cfgW wEmpty (some "Basic dXNlcg==") (.obj [])
      (by decide)⟩⟩

/-! ### C2 -/

/-- C2: for every collection and property, an authorized request with action
"add" uploads exactly the old collection with the property appended: length
grows by one and every prior element keeps its value and position (no
duplicate-id check anywhere: no hypothesis constrains the ids). -/
theorem C2_add_appends (cfg : Config) (w : World) (req : Request)
    (bv property : JsonValue) (u : User) (xs : List JsonValue)
    (hb : req.body = .ok bv)
    (ht : tokenFalsy (extractToken (req.authHeader.getD "")) = false)
    (hc : configOk cfg = true)
    (hgu : w.getUser ((extractToken (req.authHeader.getD "")).getD "") =
      ⟨false, some u⟩)
    (hadm : jsToLower (u.email.getD "") ∈ adminEmailsOf cfg)
    (hrd : readProps w = .ok (.inr (.arr xs)))
    (hact : jsGetField bv "action" = .ok (some (.str "add")))
    (hprop : jsGetField bv "property" = .ok (some property))
    (htp : truthy property = true) :
    (POST cfg w req).uploadRequest = some (.arr (xs ++ [property])) ∧
    (xs ++ [property]).length = xs.length + 1 ∧
    (∀ i, i < xs.length → (xs ++ [property])[i]? = xs[i]?) := by
  refine ⟨?_, by simp, fun i hi => List.getElem?_append_left hi⟩
  simp [POST, POSTinner, hb, ht, hc, hgu, hadm, hrd, hact, hprop,
    applyAction, strEq, jsPush, truthyOpt_some, truthy_str]
  cases w.uploadError <;> simp [hadm, htp]

/-- C2 witness: an authorized "add" of `propA` onto the empty collection
uploads exactly `[propA]`. -/
theorem C2_add_appends_witness :
    (POST cfgW wEmpty reqAdd).uploadRequest = some (.arr ([] ++ [propA])) ∧
    (([] : List JsonValue) ++ [propA]).length = ([] : List JsonValue).length + 1 ∧
    (∀ i, i < ([] : List JsonValue).length →
      (([] : List JsonValue) ++ [propA])[i]? = ([] : List JsonValue)[i]?) :=
  C2_add_appends cfgW wEmpty reqAdd
    (.obj [("action", .str "add"), ("property", propA)]) propA adminUser []
    rfl (by decide) (by decide) rfl (by decide) rfl rfl rfl rfl

/-! ### C3 -/

/-- C3: a (non-throwing) "edit" replaces exactly the elements whose
string-coerced id equals the string coercion of `property.id`: the result is
the pointwise map, length and order are preserved, position `i` holds the new
property iff the old element at `i` matched (so several matches are all
replaced), and with no match the collection is unchanged. -/
theorem C3_edit_replaces (xs : List JsonValue) (p : JsonValue)
    (ys : List JsonValue) (h : applyEdit xs p = .ok ys) :
    ys = xs.map (fun q => if idStr q = idStr p then p else q) ∧
    ys.length = xs.length ∧
    (∀ i (hi : i < xs.length),
      ys[i]? = some (if idStr (xs.get ⟨i, hi⟩) = idStr p then p
                     else xs.get ⟨i, hi⟩)) ∧
    ((∀ q ∈ xs, idStr q ≠ idStr p) → ys = xs) := by
  have hm := applyEdit_eq_map h
  refine ⟨hm, by simp [hm], fun i hi => ?_, fun hno => ?_⟩
  · rw [hm, List.getElem?_map, List.getElem?_eq_getElem hi]
    simp [List.get_eq_getElem]
  · rw [hm]
    exact map_id_of_mem (fun a ha => by simp [hno a ha])

/-- C3 witness: editing id "1" in `[prop1x, prop2x]` with `prop1new` yields
`[prop1new, prop2x]` — the matching element replaced, order preserved. -/
theorem C3_edit_replaces_witness :
    applyEdit [prop1x, prop2x] prop1new = .ok [prop1new, prop2x] ∧
    [prop1new, prop2x] =
      [prop1x, prop2x].map
        (fun q => if idStr q = idStr prop1new then prop1new else q) :=
  ⟨rfl,
   (C3_edit_replaces [prop1x, prop2x] prop1new [prop1new, prop2x] rfl).1⟩

/-! ### C4 -/

/-- C4: a (non-throwing) "delete" removes exactly the elements whose
string-coerced id equals the string coercion of `property.id`: the result is
the filter keeping the others, it is a sublist of the input (relative order
of survivors preserved), and membership is characterized by the id test. -/
theorem C4_delete_removes (xs : List JsonValue) (p : JsonValue)
    (ys : List JsonValue) (h : applyDelete xs p = .ok ys) :
    ys = xs.filter (fun q => idStr q != idStr p) ∧
    List.Sublist ys xs ∧
    (∀ q, q ∈ ys ↔ q ∈ xs ∧ idStr q ≠ idStr p) := by
  have hf := applyDelete_eq_filter h
  refine ⟨hf, by rw [hf]; exact List.filter_sublist xs, fun q => ?_⟩
  rw [hf]
  simp [List.mem_filter]

/-- C4 witness: deleting id "1" from the mixed-type collection
`[{id: 1, x: 1}, {id: "1", x: 2}]` removes both elements — numeric `1` and
string "1" string-coerce to the same identity. -/
theorem C4_delete_removes_witness :
    applyDelete [.obj [("id", .num 1), ("x", .num 1)],
                 .obj [("id", .str "1"), ("x", .num 2)]]
        (.obj [("id", .str "1")]) = .ok [] ∧
    ([] : List JsonValue) =
      [JsonValue.obj [("id", .num 1), ("x", .num 1)],
       JsonValue.obj [("id", .str "1"), ("x", .num 2)]].filter
        (fun q => idStr q != idStr (.obj [("id", .str "1")])) :=
  ⟨rfl,
   (C4_delete_removes
      [.obj [("id", .num 1), ("x", .num 1)], .obj [("id", .str "1"), ("x", .num 2)]]
      (.obj [("id", .str "1")]) [] rfl).1⟩

/-! ### C5 -/

/-- C5: with action and property both present (truthy) but the action equal
to none of "add", "edit", "delete", the handler answers 400
{error: "Unknown action"} and never reaches the upload (uploadRequest is
none), whatever the stored collection was. -/
theorem C5_unknown_action (cfg : Config) (w : World) (req : Request)
    (bv av pv props : JsonValue) (u : User)
    (hb : req.body = .ok bv)
    (ht : tokenFalsy (extractToken (req.authHeader.getD "")) = false)
    (hc : configOk cfg = true)
    (hgu : w.getUser ((extractToken (req.authHeader.getD "")).getD "") =
      ⟨false, some u⟩)
    (hadm : jsToLower (u.email.getD "") ∈ adminEmailsOf cfg)
    (hrd : readProps w = .ok (.inr props))
    (hact : jsGetField bv "action" = .ok (some av))
    (hprop : jsGetField bv "property" = .ok (some pv))
    (hta : truthy av = true)
    (htp : truthy pv = true)
    (h1 : av ≠ .str "add") (h2 : av ≠ .str "edit") (h3 : av ≠ .str "delete") :
    POST cfg w req = ⟨errResp 400 "Unknown action", none, false⟩ := by
  simp [POST, POSTinner, hb, ht, hc, hgu, hadm, hrd, hact, hprop,
    truthyOpt_some, hta, htp, applyAction,
    strEq_eq_false h1, strEq_eq_false h2, strEq_eq_false h3]

/-- C5 witness: action "bogus" on the empty stored collection gives 400
"Unknown action" with no upload. -/
theorem C5_unknown_action_witness :
    POST cfgW wEmpty
      ⟨some "Bearer token-1",
       .ok (.obj [("action", .str "bogus"), ("property", propA)])⟩ =
      ⟨errResp 400 "Unknown action", none, false⟩ :=
  C5_unknown_action cfgW wEmpty
    ⟨some "Bearer token-1",
     .ok (.obj [("action", .str "bogus"), ("property", propA)])⟩
    (.obj [("action", .str "bogus"), ("property", propA)])
    (.str "bogus") propA (.arr []) adminUser
    rfl (by decide) (by decide) rfl (by decide) rfl rfl rfl rfl rfl
    (by simp) (by simp) (by simp)

/-! ### C6 -/

/-- C6: the delete mutation is idempotent on the collection — a second
delete of the same id returns the same collection — a delete matching no
element leaves the collection unchanged, and the request still succeeds,
responding 200 {ok: true} and uploading that unchanged collection. -/
theorem C6_delete_idempotent (cfg : Config) (w : World) (req : Request)
    (bv p : JsonValue) (u : User) (xs ys : List JsonValue)
    (h : applyDelete xs p = .ok ys)
    (hb : req.body = .ok bv)
    (ht : tokenFalsy (extractToken (req.authHeader.getD "")) = false)
    (hc : configOk cfg = true)
    (hgu : w.getUser ((extractToken (req.authHeader.getD "")).getD "") =
      ⟨false, some u⟩)
    (hadm : jsToLower (u.email.getD "") ∈ adminEmailsOf cfg)
    (hrd : readProps w = .ok (.inr (.arr xs)))
    (hact : jsGetField bv "action" = .ok (some (.str "delete")))
    (hprop : jsGetField bv "property" = .ok (some p))
    (htp : truthy p = true)
    (hup : w.uploadError = none) :
    applyDelete ys p = .ok ys ∧
    ((∀ q ∈ xs, idStr q ≠ idStr p) → ys = xs) ∧
    POST cfg w req =
      ⟨okResp, some (.arr ys), cfg.VERCEL_DEPLOY_HOOK.getD "" != ""⟩ := by
  refine ⟨applyDelete_idem h, fun hno => ?_, ?_⟩
  · rw [applyDelete_eq_filter h]
    exact filter_all_of_mem (fun a ha => by simp [hno a ha])
  · simp [POST, POSTinner, hb, ht, hc, hgu, hadm, hrd, hact, hprop, hup,
      applyAction, strEq, h, truthyOpt_some, truthy_str, htp]

def delNine : JsonValue := .obj [("id", .str "9")]

def wColl : World :=
  ⟨authOk, ⟨some "stored", none⟩,
   fun s => if s = "stored" then .ok (.arr [prop2x]) else .error "parse error",
   none, false⟩

def reqDel : Request :=
  ⟨some "Bearer token-1",
   .ok (.obj [("action", .str "delete"), ("property", delNine)])⟩

/-- C6 witness: deleting the absent id "9" from the stored collection
`[prop2x]` leaves it unchanged and the request responds 200 {ok: true}. -/
theorem C6_delete_idempotent_witness :
    applyDelete [prop2x] delNine = .ok [prop2x] ∧
    POST cfgW wColl reqDel = ⟨okResp, some (.arr [prop2x]), true⟩ :=
  ⟨(C6_delete_idempotent cfgW wColl reqDel
      (.obj [("action", .str "delete"), ("property", delNine)]) delNine
      adminUser [prop2x] [prop2x] rfl rfl (by decide) (by decide) rfl
      (by decide) rfl rfl rfl rfl rfl).1,
   (C6_delete_idempotent cfgW wColl reqDel
      (.obj [("action", .str "delete"), ("property", delNine)]) delNine
      adminUser [prop2x] [prop2x] rfl rfl (by decide) (by decide) rfl
      (by decide) rfl rfl rfl rfl rfl).2.2⟩

/-! ### C7 -/

/-- C7: in the read step, a 404 download error (with no data) and an
empty-string file content both normalize to the empty collection and
processing continues, while any non-404 download error makes the whole
request answer 500 with "Failed to read properties.json: " followed by the
provider message, with no mutation and no upload. -/
theorem C7_read_normalization :
    (∀ (w : World) (e : StorageError), w.download.error = some e →
      e.status = some 404 → w.download.data = none →
      readProps w = .ok (.inr (.arr []))) ∧
    (∀ w : World, w.download.error = none → w.download.data = some "" →
      readProps w = .ok (.inr (.arr []))) ∧
    (∀ (cfg : Config) (w : World) (req : Request) (bv : JsonValue) (u : User)
        (e : StorageError),
      req.body = .ok bv →
      tokenFalsy (extractToken (req.authHeader.getD "")) = false →
      configOk cfg = true →
      w.getUser ((extractToken (req.authHeader.getD "")).getD "") =
        ⟨false, some u⟩ →
      jsToLower (u.email.getD "") ∈ adminEmailsOf cfg →
      w.download.error = some e →
      e.status ≠ some 404 →
      POST cfg w req =
        ⟨errResp 500 ("Failed to read properties.json: " ++ e.message),
         none, false⟩) := by
  refine ⟨fun w e h1 h2 h3 => by simp [readProps, readData, h1, h2, h3],
          fun w h1 h2 => by simp [readProps, readData, h1, h2],
          fun cfg w req bv u e hb ht hc hgu hadm herr hst => ?_⟩
  simp [POST, POSTinner, hb, ht, hc, hgu, hadm, readProps, herr, hst]

def w404 : World :=
  ⟨authOk, ⟨none, some ⟨some 404, "Object not found"⟩⟩,
   fun _ => .error "unused parse", none, false⟩

def wBlank : World :=
  ⟨authOk, ⟨some "", none⟩, fun _ => .error "unused parse", none, false⟩

def wDown : World :=
  ⟨authOk, ⟨none, some ⟨some 503, "service unavailable"⟩⟩,
   fun _ => .error "unused parse", none, false⟩

/-- C7 witness: the theorem at a 404 download, an empty-string download and a
503 download. -/
theorem C7_read_normalization_witness :
    readProps w404 = .ok (.inr (.arr [])) ∧
    readProps wBlank = .ok (.inr (.arr [])) ∧
    POST cfgW wDown reqAdd =
      ⟨errResp 500 "Failed to read properties.json: service unavailable",
       none, false⟩ :=
  ⟨C7_read_normalization.1 w404 ⟨some 404, "Object not found"⟩ rfl rfl rfl,
   C7_read_normalization.2.1 wBlank rfl rfl,
   C7_read_normalization.2.2 cfgW wDown reqAdd
     (.obj [("action", .str "add"), ("property", propA)]) adminUser
     ⟨some 503, "service unavailable"⟩
     rfl (by decide) (by decide) rfl (by decide) rfl (by decide)⟩

/-! ### C8 -/

/-- C8: once the mutation applied and the upload succeeded, the response is
200 {ok: true}; neither the deploy-hook configuration nor the outcome of the
hook fetch (`fetchFails` is unconstrained) influences the response. -/
theorem C8_webhook_best_effort (cfg : Config) (w : World) (req : Request)
    (bv props av pv newProps : JsonValue) (u : User)
    (hb : req.body = .ok bv)
    (ht : tokenFalsy (extractToken (req.authHeader.getD "")) = false)
    (hc : configOk cfg = true)
    (hgu : w.getUser ((extractToken (req.authHeader.getD "")).getD "") =
      ⟨false, some u⟩)
    (hadm : jsToLower (u.email.getD "") ∈ adminEmailsOf cfg)
    (hrd : readProps w = .ok (.inr props))
    (hact : jsGetField bv "action" = .ok (some av))
    (hprop : jsGetField bv "property" = .ok (some pv))
    (hta : truthy av = true)
    (htp : truthy pv = true)
    (happ : applyAction props av pv = .ok (some newProps))
    (hup : w.uploadError = none) :
    POST cfg w req =
      ⟨okResp, some newProps, cfg.VERCEL_DEPLOY_HOOK.getD "" != ""⟩ := by
  simp [POST, POSTinner, hb, ht, hc, hgu, hadm, hrd, hact, hprop,
    truthyOpt_some, hta, htp, happ, hup]

def wHookFail : World :=
  ⟨authOk, ⟨none, none⟩, fun _ => .error "unused parse", none, true⟩

/-- C8 witness: the same successful add gets the same 200 {ok: true} when
the hook fetch throws (`wHookFail`) and when it succeeds (`wEmpty`). -/
theorem C8_webhook_best_effort_witness :
    POST cfgW wHookFail reqAdd = ⟨okResp, some (.arr [propA]), true⟩ ∧
    POST cfgW wEmpty reqAdd = ⟨okResp, some (.arr [propA]), true⟩ :=
  ⟨C8_webhook_best_effort cfgW wHookFail reqAdd
     (.obj [("action", .str "add"), ("property", propA)]) (.arr [])
     (.str "add") propA (.arr [propA]) adminUser
     rfl (by decide) (by decide) rfl (by decide) rfl rfl rfl rfl rfl rfl rfl,
   C8_webhook_best_effort cfgW wEmpty reqAdd
     (.obj [("action", .str "add"), ("property", propA)]) (.arr [])
     (.str "add") propA (.arr [propA]) adminUser
     rfl (by decide) (by decide) rfl (by decide) rfl rfl rfl rfl rfl rfl rfl⟩

/-! ### C9 -/

/-- C9: with ADMIN_EMAILS unset or empty, the parsed allowlist is [""], and
a token-verified user with no email field (lower-cased to "") passes the
admin check and mutates the collection (here: an "add" reaches the upload
with the appended collection). -/
theorem C9_empty_allowlist (cfg : Config)
    (hadm : cfg.ADMIN_EMAILS = none ∨ cfg.ADMIN_EMAILS = some "") :
    adminEmailsOf cfg = [""] ∧
    (∀ (w : World) (req : Request) (bv pv : JsonValue) (xs : List JsonValue),
      req.body = .ok bv →
      tokenFalsy (extractToken (req.authHeader.getD "")) = false →
      configOk cfg = true →
      w.getUser ((extractToken (req.authHeader.getD "")).getD "") =
        ⟨false, some ⟨none⟩⟩ →
      readProps w = .ok (.inr (.arr xs)) →
      jsGetField bv "action" = .ok (some (.str "add")) →
      jsGetField bv "property" = .ok (some pv) →
      truthy pv = true →
      (POST cfg w req).uploadRequest = some (.arr (xs ++ [pv]))) := by
  have h1 : adminEmailsOf cfg = [""] := by
    rcases hadm with h | h <;> simp [adminEmailsOf, h] <;> decide
  refine ⟨h1, fun w req bv pv xs hb ht hc hgu hrd hact hprop htp => ?_⟩
  have hmem : jsToLower "" ∈ adminEmailsOf cfg := by
    rw [h1]; decide
  simp [POST, POSTinner, hb, ht, hc, hgu, hmem, hrd, hact, hprop,
    applyAction, strEq, jsPush, truthyOpt_some, truthy_str]
  cases w.uploadError <;> simp [hmem, htp]

def cfg0 : Config :=
  ⟨some "https://supabase.example", none, some "anon-key", none,
   some "service-key", none, none⟩

def w0 : World :=
  ⟨fun _ => ⟨false, some ⟨none⟩⟩, ⟨none, none⟩,
   fun _ => .error "unused parse", none, false⟩

/-- C9 witness: ADMIN_EMAILS unset, a user without email adds a property and
the upload carries it. -/
theorem C9_empty_allowlist_witness :
    adminEmailsOf cfg0 = [""] ∧
    (POST cfg0 w0 reqAdd).uploadRequest = some (.arr ([] ++ [propA])) :=
  ⟨(C9_empty_allowlist cfg0 (Or.inl rfl)).1,
   (C9_empty_allowlist cfg0 (Or.inl rfl)).2 w0 reqAdd
     (.obj [("action", .str "add"), ("property", propA)]) propA []
     rfl (by decide) (by decide) rfl rfl rfl rfl rfl⟩

/-! ### C10 -/

/-- C10: the Bad request validation tests truthiness, not presence — if the
action field or the property field evaluates to a falsy JSON value (absent,
null, false, 0 or ""), the handler answers 400 {error: "Bad request"} and no
upload is attempted. -/
theorem C10_falsy_bad_request (cfg : Config) (w : World) (req : Request)
    (bv props : JsonValue) (oa op : Option JsonValue) (u : User)
    (hb : req.body = .ok bv)
    (ht : tokenFalsy (extractToken (req.authHeader.getD "")) = false)
    (hc : configOk cfg = true)
    (hgu : w.getUser ((extractToken (req.authHeader.getD "")).getD "") =
      ⟨false, some u⟩)
    (hadm : jsToLower (u.email.getD "") ∈ adminEmailsOf cfg)
    (hrd : readProps w = .ok (.inr props))
    (hact : jsGetField bv "action" = .ok oa)
    (hprop : jsGetField bv "property" = .ok op)
    (hfalsy : truthyOpt oa = false ∨ truthyOpt op = false) :
    POST cfg w req = ⟨errResp 400 "Bad request", none, false⟩ := by
  rcases hfalsy with hx | hx <;>
    simp [POST, POSTinner, hb, ht, hc, hgu, hadm, hrd, hact, hprop, hx]

/-- C10 witness: an action that is the number 0 and a property that is null
both give 400 Bad request with no upload. -/
theorem C10_falsy_bad_request_witness :
    POST cfgW wEmpty
      ⟨some "Bearer token-1",
       .ok (.obj [("action", .num 0), ("property", propA)])⟩ =
      ⟨errResp 400 "Bad request", none, false⟩ ∧
    POST cfgW wEmpty
      ⟨some "Bearer token-1",
       .ok (.obj [("action", .str "add"), ("property", .null)])⟩ =
      ⟨errResp 400 "Bad request", none, false⟩ :=
  ⟨C10_falsy_bad_request cfgW wEmpty
     ⟨some "Bearer token-1", .ok (.obj [("action", .num 0), ("property", propA)])⟩
     (.obj [("action", .num 0), ("property", propA)]) (.arr [])
     (some (.num 0)) (some propA) adminUser
     rfl (by decide) (by decide) rfl (by decide) rfl rfl rfl (Or.inl rfl),
   C10_falsy_bad_request cfgW wEmpty
     ⟨some "Bearer token-1", .ok (.obj [("action", .str "add"), ("property", .null)])⟩
     (.obj [("action", .str "add"), ("property", .null)]) (.arr [])
     (some (.str "add")) (some .null) adminUser
     rfl (by decide) (by decide) rfl (by decide) rfl rfl rfl (Or.inr rfl)⟩
